import Mathlib

/-!
Verification of the playswag coverage engine: a shallow embedding, in Lean, of
the request tracker, OpenAPI path matcher, coverage analyzer, percentile math,
recommendation engine and exporters found under src/, together with theorems
settling the specification claims.

Conventions of the embedding:
* JavaScript numbers that hold integer millisecond values (timestamps,
  durations, status codes) are modelled as Nat; numbers produced by division
  (percentages, averages) are modelled as Rat, matching the exact value of the
  source expression.
* optional object fields are modelled as Option; JavaScript truthiness of a
  numeric field (where both undefined and 0 are falsy) is modelled explicitly
  at each use site, mirroring the source expression.
* stateful classes become explicit state-passing over structures; the thrown
  exception of a failed collaborator call is an Except value.
-/

namespace PlaySwag

/-- Observation record created by the tracker, from src/types/request.ts
(RequestInfo).  The params and headers maps are opaque to every analysed
operation and are omitted from the embedding. -/
structure RequestInfo where
  method : String
  url : String
  timestamp : Nat
  status : Option Nat := none
  duration : Option Nat := none
deriving DecidableEq, Repr

/-- Path extraction from src/utils/url.ts: extractPath returns
new URL(url).pathname, and the raw url when URL parsing throws.  The WHATWG
URL collaborator is modelled for absolute http(s) URLs: the pathname starts at
the first slash after the authority and stops before the query or fragment; a
URL with no path component has pathname "/"; any other string fails to parse
and is returned unchanged. -/
def extractPathAfterScheme (cs : List Char) : List Char :=
  let afterHost := cs.dropWhile (fun c => ¬ (c = '/' ∨ c = '?' ∨ c = '#'))
  match afterHost with
  | [] => ['/']
  | c :: _ => if c = '/' then afterHost.takeWhile (fun c => ¬ (c = '?' ∨ c = '#')) else ['/']

/-- Scheme recognised by the modelled URL collaborator. -/
def httpScheme : List Char := ['h', 't', 't', 'p', ':', '/', '/']

/-- Secure variant of the recognised scheme. -/
def httpsScheme : List Char := ['h', 't', 't', 'p', 's', ':', '/', '/']

/-- Embedding of extractPath from src/utils/url.ts. -/
def extractPath (url : String) : String :=
  if httpScheme.isPrefixOf url.data then ⟨extractPathAfterScheme (url.data.drop 7)⟩
  else if httpsScheme.isPrefixOf url.data then ⟨extractPathAfterScheme (url.data.drop 8)⟩
  else url

/-- One atom of the regular expression that OpenAPIParser.matchPath builds
from a path template: a literal character, the regex dot left unescaped by
the source, the character class produced for a path parameter, or a
plus-quantified literal or dot. -/
inductive PathTok where
  | lit (c : Char)
  | anyChar
  | wildcard
  | plus (base : PathTok)
deriving DecidableEq, Repr

/-- Characters whose regular-expression meaning the source leaves active and
this embedding does not model: the quantifiers star and question mark,
groups, character classes, alternation, anchors and the backslash escape.
The dot and the plus quantifier are modelled, and braces are consumed by the
parameter replacement.  A template containing one of these characters
outside a parameter body compiles to none: the program still gives such a
template its full regex meaning there, so every matching theorem below is
restricted to templates that compile. -/
def regexUnmodelled : List Char := ['\\', '^', '$', '*', '?', '(', ')', '[', ']', '|']

/-- Translation of one character outside any brace group into a regex atom: a
dot stays the unescaped regex dot, an unmodelled metacharacter yields none,
everything else (the escaped slash included) is literal.  The plus is
handled by its caller, which attaches it to the preceding atom. -/
def plainTok (c : Char) : Option PathTok :=
  if c = '.' then some PathTok.anyChar
  else if c ∈ regexUnmodelled then none
  else some (PathTok.lit c)

/-- Literal re-scan of an unterminated brace run left at the end of the
template: the replace leaves the run untouched, so in the built regex its
braces are literal characters, a dot keeps its regex meaning and a plus
quantifies the preceding atom. -/
def plainScan : List Char → Option (List PathTok)
  | [] => some []
  | [c] =>
      if c = '+' then none
      else (plainTok c).map ([·])
  | c :: c2 :: rest =>
      if c = '+' then none
      else
        match plainTok c with
        | none => none
        | some t =>
            if c2 = '+' then (plainScan rest).map (PathTok.plus t :: ·)
            else (plainScan (c2 :: rest)).map (t :: ·)

/-- Compilation of a path template into regex atoms, the effect of the source
expression in src/parsers/openapi.ts that replaces every brace group having a
non-empty body with the one-or-more non-slash character class and escapes the
slashes.  The left-to-right global replace is realised as a scan whose state
buffers the body of a pending open brace: a brace group closed on a non-empty
body becomes the parameter class; an immediately closed pair or an open brace
never closed falls back to literal braces, as the replace leaves it
untouched.  A plus right after a literal or a dot quantifies that atom, as in
the built regex.  The result is none outside the modelled fragment: when the
template holds an unmodelled metacharacter outside a parameter body, or a
plus in a position the regex grammar refuses (at the start, after a
parameter class, or after another plus — the RegExp constructor throws
there). -/
def compileAux : Option (List Char) → List Char → Option (List PathTok)
  | none, [] => some []
  | some acc, [] => plainScan ('{' :: acc.reverse)
  | none, c :: rest =>
      if c = '{' then compileAux (some []) rest
      else if c = '+' then none
      else
        match plainTok c, rest with
        | none, _ => none
        | some t, [] => some [t]
        | some t, c2 :: rest2 =>
            if c2 = '+' then (compileAux none rest2).map (PathTok.plus t :: ·)
            else (compileAux none (c2 :: rest2)).map (t :: ·)
  | some acc, c :: rest =>
      if c = '}' then
        if acc.isEmpty then
          match rest with
          | [] => some [PathTok.lit '{', PathTok.lit '}']
          | c2 :: rest2 =>
              if c2 = '+' then
                (compileAux none rest2).map
                  (fun ts => PathTok.lit '{' :: PathTok.plus (PathTok.lit '}') :: ts)
              else
                (compileAux none (c2 :: rest2)).map
                  (fun ts => PathTok.lit '{' :: PathTok.lit '}' :: ts)
        else
          match rest with
          | [] => some [PathTok.wildcard]
          | c2 :: rest2 =>
              if c2 = '+' then none
              else (compileAux none (c2 :: rest2)).map (PathTok.wildcard :: ·)
      else compileAux (some (c :: acc)) rest

/-- Compilation of the whole template string, as matchPath builds its
regular expression. -/
def compileTemplate (cs : List Char) : Option (List PathTok) :=
  compileAux none cs

/-- Template compilation following the specification text instead of the
source: each brace group is a wildcard and every other character, the dot
included, must match exactly.  Used to compare the source matcher with the
specified one. -/
def specCompileAux : Option (List Char) → List Char → List PathTok
  | none, [] => []
  | some acc, [] => ('{' :: acc.reverse).map PathTok.lit
  | none, c :: rest =>
      if c = '{' then specCompileAux (some []) rest
      else PathTok.lit c :: specCompileAux none rest
  | some acc, c :: rest =>
      if c = '}' then
        if acc.isEmpty then
          PathTok.lit '{' :: PathTok.lit '}' :: specCompileAux none rest
        else
          PathTok.wildcard :: specCompileAux none rest
      else specCompileAux (some (c :: acc)) rest

/-- Whole-template compilation on the specification reading. -/
def specCompileTemplate (cs : List Char) : List PathTok :=
  specCompileAux none cs

/-- A JavaScript regex line terminator, which the unescaped dot does not
match. -/
def isLineTerminator (c : Char) : Bool :=
  c = '\n' ∨ c = '\r' ∨ c = Char.ofNat 0x2028 ∨ c = Char.ofNat 0x2029

/-- Single-character acceptance of a quantifiable atom, a literal or the
dot; compiled templates never quantify a parameter class or another
quantifier, so those answer false. -/
def atomMatches : PathTok → Char → Bool
  | PathTok.lit c, c2 => c = c2
  | PathTok.anyChar, c2 => !isLineTerminator c2
  | _, _ => false

/-- Anchored matching of the compiled atoms against a path, the semantics of
regex.test on the pattern built by matchPath: a literal matches itself, the
dot matches any single non-line-terminator character, the parameter class
consumes one or more non-slash characters, and a plus-quantified atom
consumes one or more characters its atom accepts.  Every modelled atom
consumes at least one character. -/
def toksMatch : List PathTok → List Char → Bool
  | [], [] => true
  | [], _ :: _ => false
  | _ :: _, [] => false
  | PathTok.lit c :: ts, c2 :: cs => c = c2 && toksMatch ts cs
  | PathTok.anyChar :: ts, c2 :: cs => !isLineTerminator c2 && toksMatch ts cs
  | PathTok.wildcard :: ts, c2 :: cs =>
      !(c2 = '/') && (toksMatch ts cs || toksMatch (PathTok.wildcard :: ts) cs)
  | PathTok.plus t :: ts, c2 :: cs =>
      atomMatches t c2 && (toksMatch ts cs || toksMatch (PathTok.plus t :: ts) cs)

/-- The per-endpoint test of OpenAPIParser.matchPath: whether the regex built
from the template accepts the request path.  A template outside the modelled
fragment (compileTemplate none) is given no semantics by this embedding —
the program applies full regex matching there, or fails to construct the
pattern at all on a malformed quantifier — and this function returns false
for it only to keep its callers total; every matching theorem below
therefore carries a compiled-template hypothesis. -/
def templateMatches (tpl path : String) : Bool :=
  match compileTemplate tpl.data with
  | some toks => toksMatch toks path.data
  | none => false

/-- Matching as the specification describes it: brace groups are wildcards for
one non-empty slash-free run and every other character matches itself. -/
def specTemplateMatches (tpl path : String) : Bool :=
  toksMatch (specCompileTemplate tpl.data) path.data

/-- Whether a compiled atom is plain in the sense of the specification
reading: a literal character or a parameter class, with no regex dot and no
quantifier. -/
def PathTok.isLiteralOrClass : PathTok → Bool
  | PathTok.lit _ => true
  | PathTok.wildcard => true
  | _ => false

/-- A template is plain when it compiles and its pattern consists only of
literal characters and parameter classes — equivalently, when it contains no
unescaped regex metacharacter outside its parameter bodies.  On plain
templates the source matcher coincides with the specification matching. -/
def modelledPlainTemplate (tpl : String) : Bool :=
  match compileTemplate tpl.data with
  | some toks => toks.all PathTok.isLiteralOrClass
  | none => false

/-- Uppercasing of an ASCII letter, the effect of toUpperCase on the method
strings handled here. -/
def upperChar (c : Char) : Char :=
  if 'a' ≤ c ∧ c ≤ 'z' then Char.ofNat (c.toNat - 32) else c

/-- Uppercasing of a string, as method.toUpperCase() in the tracker and
parser. -/
def upperStr (s : String) : String :=
  ⟨s.data.map upperChar⟩

/-- Operation object held under a method key of a path item, from
src/types/openapi.ts. -/
structure OpenAPIOperation where
  operationId : Option String := none
  summary : Option String := none
  tags : Option (List String) := none
deriving DecidableEq, Repr

/-- Declared operation produced by OpenAPIParser.getEndpoints, from
src/types/openapi.ts (OpenAPIEndpoint). -/
structure OpenAPIEndpoint where
  path : String
  method : String
  operationId : Option String := none
  summary : Option String := none
  tags : Option (List String) := none
deriving DecidableEq, Repr

/-- The parsed specification document: the paths object is a key-ordered
association of path templates to path items, themselves associations of
lowercase method names to operations, as the source iterates them with
Object.entries. -/
structure OpenAPISpec where
  paths : List (String × List (String × OpenAPIOperation))
deriving Repr

/-- Property lookup on a modelled JSON object. -/
def lookupField {α : Type} (fields : List (String × α)) (k : String) : Option α :=
  (fields.find? (fun p => p.1 == k)).map (·.2)

/-- The fixed method iteration order of OpenAPIParser.getEndpoints. -/
def methodNames : List String :=
  ["get", "post", "put", "patch", "delete", "head", "options"]

/-- Embedding of OpenAPIParser.getEndpoints: outer document path order, inner
fixed method order, methods absent from the path item skipped. -/
def getEndpoints (spec : OpenAPISpec) : List OpenAPIEndpoint :=
  spec.paths.flatMap (fun pi =>
    methodNames.filterMap (fun m =>
      (lookupField pi.2 m).map (fun op =>
        { path := pi.1, method := upperStr m, operationId := op.operationId,
          summary := op.summary, tags := op.tags })))

/-- Embedding of OpenAPIParser.matchPath: every declared endpoint whose
compiled template accepts the request path, in catalog order. -/
def matchPath (spec : OpenAPISpec) (requestPath : String) : List OpenAPIEndpoint :=
  (getEndpoints spec).filter (fun ep => templateMatches ep.path requestPath)

/-- The method-and-path key used by RequestTracker.getUniqueEndpoints for an
observation. -/
def endpointKey (req : RequestInfo) : String :=
  req.method ++ " " ++ extractPath req.url

/-- The identity key of a declared endpoint used by the coverage analyzer. -/
def coverageKey (ep : OpenAPIEndpoint) : String :=
  ep.method ++ " " ++ ep.path

/-- Insertion into a modelled JS Set kept as a list in insertion order. -/
def pushNew (acc : List String) (s : String) : List String :=
  if s ∈ acc then acc else acc ++ [s]

/-- The JS Set built by getUniqueEndpoints: distinct endpoint keys in first
insertion order. -/
def uniqueEndpointList (reqs : List RequestInfo) : List String :=
  reqs.foldl (fun acc r => pushNew acc (endpointKey r)) []

/-- Pairing of an observation with its matched endpoint, from
src/types/coverage.ts (EndpointMatch); the isMatched flag is the derived
presence of matchedEndpoint. -/
structure EndpointMatch where
  request : RequestInfo
  matchedEndpoint : Option OpenAPIEndpoint
deriving DecidableEq, Repr

/-- Embedding of CoverageAnalyzer.matchRequests: each observation is paired
with the first catalog-order match whose method equals the observation
method. -/
def matchRequests (spec : OpenAPISpec) (requests : List RequestInfo) : List EndpointMatch :=
  requests.map (fun request =>
    { request := request
      matchedEndpoint :=
        (matchPath spec (extractPath request.url)).find? (fun ep => ep.method == request.method) })

/-- Embedding of CoverageAnalyzer.getCoveredEndpoints: matched endpoints in
order of first occurrence, deduplicated by identity key. -/
def getCoveredEndpoints (matchList : List EndpointMatch) : List OpenAPIEndpoint :=
  matchList.foldl (fun acc m =>
    match m.matchedEndpoint with
    | some ep =>
        if acc.any (fun e => coverageKey e == coverageKey ep) then acc else acc ++ [ep]
    | none => acc) []

/-- Embedding of CoverageAnalyzer.getUncoveredEndpoints. -/
def getUncoveredEndpoints (specEndpoints covered : List OpenAPIEndpoint) :
    List OpenAPIEndpoint :=
  specEndpoints.filter (fun ep => !(covered.any (fun c => coverageKey c == coverageKey ep)))

/-- Embedding of CoverageAnalyzer.getExtraEndpoints: keys of unmatched
observations, deduplicated in insertion order. -/
def getExtraEndpoints (matchList : List EndpointMatch) : List String :=
  matchList.foldl (fun acc m =>
    match m.matchedEndpoint with
    | some _ => acc
    | none => pushNew acc (m.request.method ++ " " ++ extractPath m.request.url)) []

/-- The requestSummary object of a coverage report, from
src/types/coverage.ts; the distribution records are JS objects modelled as
association lists in key insertion order. -/
structure RequestSummary where
  totalRequests : Nat
  uniqueEndpoints : Nat
  methodDistribution : List (String × Nat)
  statusDistribution : List (String × Nat)
deriving DecidableEq, Repr

/-- Increment of a counter key in a modelled JS record. -/
def bumpCount (m : List (String × Nat)) (k : String) : List (String × Nat) :=
  if m.any (fun p => p.1 == k) then
    m.map (fun p => if p.1 == k then (p.1, p.2 + 1) else p)
  else m ++ [(k, 1)]

/-- The status bucket label floor(status in hundreds) followed by xx. -/
def statusGroup (s : Nat) : String :=
  toString (s / 100) ++ "xx"

/-- Embedding of CoverageAnalyzer.generateRequestSummary.  Every field except
uniqueEndpoints is computed from the requests argument (the analysed scope);
uniqueEndpoints is read from this.tracker.getUniqueEndpoints(), which is
always the tracker's local sequence, passed here as trackerLocal.  A status
field that is undefined or 0 is falsy and contributes to no bucket. -/
def generateRequestSummary (trackerLocal requests : List RequestInfo) : RequestSummary :=
  { totalRequests := requests.length
    uniqueEndpoints := (uniqueEndpointList trackerLocal).length
    methodDistribution := requests.foldl (fun m r => bumpCount m r.method) []
    statusDistribution := requests.foldl (fun m r =>
      match r.status with
      | some s => if s ≠ 0 then bumpCount m (statusGroup s) else m
      | none => m) [] }

/-- Coverage report shape from src/types/coverage.ts; the percentage is the
exact value of the source expression. -/
structure CoverageReport where
  totalEndpoints : Nat
  coveredEndpoints : Nat
  coveragePercentage : ℚ
  uncoveredEndpoints : List OpenAPIEndpoint
  extraEndpoints : List String
  requestSummary : RequestSummary
deriving DecidableEq, Repr

/-- Embedding of CoverageAnalyzer.analyze: the analysed scope is the
tracker's global sequence when useGlobalData is set, else its local
sequence. -/
def analyze (spec : OpenAPISpec) (localRequests globalRequests : List RequestInfo)
    (useGlobalData : Bool) : CoverageReport :=
  let requests := if useGlobalData then globalRequests else localRequests
  let specEndpoints := getEndpoints spec
  let matchList := matchRequests spec requests
  let covered := getCoveredEndpoints matchList
  { totalEndpoints := specEndpoints.length
    coveredEndpoints := covered.length
    coveragePercentage :=
      if 0 < specEndpoints.length then
        ((covered.length : ℚ) / (specEndpoints.length : ℚ)) * 100
      else 0
    uncoveredEndpoints := getUncoveredEndpoints specEndpoints covered
    extraEndpoints := getExtraEndpoints matchList
    requestSummary := generateRequestSummary localRequests requests }

/-- Process-wide tracking state from src/core/request-tracker.ts: the
GlobalRequestStore singleton sequence, together with each RequestTracker
instance's local sequence and global-tracking flag, indexed by instance. -/
structure ProcessState where
  globalRequests : List RequestInfo
  localRequests : Nat → List RequestInfo
  useGlobalTracking : Nat → Bool

/-- Embedding of RequestTracker.trackRequest for instance i: the observation
is finalised with the elapsed duration and, on success only, the status; it is
appended to the instance's local sequence and, when global tracking is enabled
for the instance, to the shared sequence; the collaborator's outcome (the
response status or the thrown error) is returned unchanged. -/
def trackRequest {ε : Type} (s : ProcessState) (i : Nat) (method url : String)
    (startTime endTime : Nat) (result : Except ε Nat) : ProcessState × Except ε Nat :=
  match result with
  | Except.ok status =>
      let info : RequestInfo :=
        { method := upperStr method, url := url, timestamp := startTime,
          status := some status, duration := some (endTime - startTime) }
      ({ s with
          localRequests := Function.update s.localRequests i (s.localRequests i ++ [info])
          globalRequests :=
            if s.useGlobalTracking i then s.globalRequests ++ [info] else s.globalRequests },
        Except.ok status)
  | Except.error e =>
      let info : RequestInfo :=
        { method := upperStr method, url := url, timestamp := startTime,
          status := none, duration := some (endTime - startTime) }
      ({ s with
          localRequests := Function.update s.localRequests i (s.localRequests i ++ [info])
          globalRequests :=
            if s.useGlobalTracking i then s.globalRequests ++ [info] else s.globalRequests },
        Except.error e)

/-- Embedding of RequestTracker.clearRequests for instance i: the instance's
local sequence is emptied. -/
def clearRequests (s : ProcessState) (i : Nat) : ProcessState :=
  { s with localRequests := Function.update s.localRequests i [] }

/-- Embedding of RequestTracker.clearGlobalRequests, which delegates to
GlobalRequestStore.clearRequests: the shared sequence is emptied. -/
def clearGlobalRequests (s : ProcessState) : ProcessState :=
  { s with globalRequests := [] }

/-- Heap of JS arrays for the aliasing-sensitive reads: each reference names
an array of observations, and references at or beyond nextRef are
unallocated. -/
structure ArrayHeap where
  arrays : Nat → List RequestInfo
  nextRef : Nat

/-- A tracker viewed through the heap: requestsRef is the array behind
this.requests and globalRef the array behind the global store's requests. -/
structure RefTracker where
  requestsRef : Nat
  globalRef : Nat
  heap : ArrayHeap

/-- Allocation of a fresh array holding a copy of the array at src: the
spread expression of getRequests and GlobalRequestStore.getRequests. -/
def allocCopy (h : ArrayHeap) (src : Nat) : ArrayHeap × Nat :=
  ({ arrays := Function.update h.arrays h.nextRef (h.arrays src),
     nextRef := h.nextRef + 1 }, h.nextRef)

/-- Embedding of RequestTracker.getRequests: returns a reference to a fresh
copy of the local array. -/
def getRequestsRef (t : RefTracker) : RefTracker × Nat :=
  let hr := allocCopy t.heap t.requestsRef
  ({ t with heap := hr.1 }, hr.2)

/-- Embedding of RequestTracker.getGlobalRequests, which returns
GlobalRequestStore.getRequests: a reference to a fresh copy of the shared
array. -/
def getGlobalRequestsRef (t : RefTracker) : RefTracker × Nat :=
  let hr := allocCopy t.heap t.globalRef
  ({ t with heap := hr.1 }, hr.2)

/-- In-place mutation of the array behind a reference, the effect of any JS
mutation of a returned array. -/
def writeArray (h : ArrayHeap) (r : Nat) (xs : List RequestInfo) : ArrayHeap :=
  { h with arrays := Function.update h.arrays r xs }

/-- Ceiling division on naturals: for a positive divisor this is the exact
ceiling of the rational quotient. -/
def ceilDiv (a b : Nat) : Nat :=
  (a + b - 1) / b

/-- Embedding of calculatePercentile from src/utils/array.ts: ascending sort,
then the index Math.ceil((percentile div 100) times length) minus 1, with the
source expression indexing the sorted array and falling back to 0 when the
index is out of range (a ceiling of 0 puts the index at -1).  The ceiling of
the exact rational is computed on naturals as ceilDiv; Math.round is the
identity on the integer millisecond durations handled here. -/
def calculatePercentile (values : List Nat) (percentile : Nat) : Nat :=
  let sorted := values.insertionSort (· ≤ ·)
  let ceilVal := ceilDiv (percentile * sorted.length) 100
  if ceilVal = 0 then 0 else (sorted.get? (ceilVal - 1)).getD 0

/-- The duration population of PerformanceAnalyzer.analyzePerformance: the
filter r.duration keeps only observations whose duration is defined and
non-zero (JS truthiness). -/
def durationsOf (requests : List RequestInfo) : List Nat :=
  requests.filterMap (fun r =>
    match r.duration with
    | some d => if d ≠ 0 then some d else none
    | none => none)

/-- Performance metrics shape from src/types/coverage.ts. -/
structure PerformanceMetrics where
  averageResponseTime : Int
  minResponseTime : Nat
  maxResponseTime : Nat
  p95ResponseTime : Nat
  p99ResponseTime : Nat
deriving DecidableEq, Repr

/-- Math.round of an exact rational: round half towards positive infinity. -/
def jsRound (q : ℚ) : Int :=
  round q

/-- Embedding of PerformanceAnalyzer.analyzePerformance: null when the
duration population is empty, else the aggregate metrics. -/
def analyzePerformance (requests : List RequestInfo) : Option PerformanceMetrics :=
  let durations := durationsOf requests
  if durations.isEmpty then none
  else some
    { averageResponseTime := jsRound ((durations.sum : ℚ) / (durations.length : ℚ))
      minResponseTime := (durations.min?).getD 0
      maxResponseTime := (durations.max?).getD 0
      p95ResponseTime := calculatePercentile durations 95
      p99ResponseTime := calculatePercentile durations 99 }

/-- Error analysis input of the recommendation engine, from
src/types/coverage.ts; only errorRate is read by the engine, the remaining
fields are opaque to it and omitted. -/
structure ErrorAnalysis where
  errorRate : ℚ
deriving DecidableEq, Repr

/-- One recommendation string pushed by
RecommendationEngine.generateRecommendations, modelled as a tagged value
carrying the numbers interpolated into the fixed English text. -/
inductive Recommendation where
  | lowCoverage
  | moderateCoverage
  | excellentCoverage
  | highErrorRate (rate : ℚ)
  | undocumentedEndpoints (count : Nat)
  | criticalUntested (count : Nat)
  | adminUntested (count : Nat)
deriving DecidableEq, Repr

/-- Whether a recommendation is the critical-endpoints one. -/
def Recommendation.isCriticalUntested : Recommendation → Bool
  | Recommendation.criticalUntested _ => true
  | _ => false

/-- The critical-endpoint filter of the recommendation engine: POST, PUT or
DELETE. -/
def isCriticalMethod (ep : OpenAPIEndpoint) : Bool :=
  ep.method == "POST" || ep.method == "PUT" || ep.method == "DELETE"

/-- The admin-tag filter of the recommendation engine; an absent tags field is
falsy and never matches. -/
def hasAdminTag (ep : OpenAPIEndpoint) : Bool :=
  match ep.tags with
  | some ts => ts.contains "admin" || ts.contains "Admin"
  | none => false

/-- Embedding of RecommendationEngine.generateRecommendations: the coverage
band message, then the conditional error-rate, undocumented-endpoints,
critical-endpoints and admin-endpoints messages, in push order. -/
def generateRecommendations (report : CoverageReport) (errorAnalysis : ErrorAnalysis) :
    List Recommendation :=
  (if report.coveragePercentage < 50 then [Recommendation.lowCoverage]
   else if report.coveragePercentage < 80 then [Recommendation.moderateCoverage]
   else [Recommendation.excellentCoverage])
  ++ (if errorAnalysis.errorRate > 10 then [Recommendation.highErrorRate errorAnalysis.errorRate]
      else [])
  ++ (if 0 < report.extraEndpoints.length then
        [Recommendation.undocumentedEndpoints report.extraEndpoints.length]
      else [])
  ++ (let critical := report.uncoveredEndpoints.filter isCriticalMethod
      if 0 < critical.length then [Recommendation.criticalUntested critical.length] else [])
  ++ (let admin := report.uncoveredEndpoints.filter hasAdminTag
      if 0 < admin.length then [Recommendation.adminUntested admin.length] else [])

/-- A JSON value, the result of JSON.parse on the exported text; the
stringify and parse round trip of the JSON collaborator is modelled as the
identity on this value. -/
inductive JsVal where
  | num (q : ℚ)
  | str (s : String)
  | arr (elems : List JsVal)
  | obj (fields : List (String × JsVal))
deriving Repr

/-- Field access on a parsed JSON object. -/
def objField (v : JsVal) (k : String) : Option JsVal :=
  match v with
  | JsVal.obj fields => lookupField fields k
  | _ => none

/-- Serialisation of one observation by JSON.stringify: fields holding
undefined are omitted. -/
def encodeRequest (r : RequestInfo) : JsVal :=
  JsVal.obj
    ([("method", JsVal.str r.method), ("url", JsVal.str r.url),
      ("timestamp", JsVal.num r.timestamp)]
      ++ (match r.status with | some s => [("status", JsVal.num s)] | none => [])
      ++ (match r.duration with | some d => [("duration", JsVal.num d)] | none => []))

/-- Two-decimal rounding of the source expression Math.round(x times 100)
divided by 100. -/
def jsRound2 (q : ℚ) : ℚ :=
  ((jsRound (q * 100) : ℚ)) / 100

/-- Embedding of RequestTracker.getSuccessRate: percentage of observations
with a truthy status below 400, rounded to two decimals, 0 on an empty
scope. -/
def getSuccessRate (reqs : List RequestInfo) : ℚ :=
  if reqs.length = 0 then 0
  else
    jsRound2
      (((reqs.countP (fun r =>
          match r.status with
          | some s => decide (s ≠ 0 ∧ s < 400)
          | none => false) : ℚ) / (reqs.length : ℚ)) * 100)

/-- Embedding of RequestTracker.getAverageDuration: mean of duration-or-0,
rounded to two decimals, 0 on an empty scope. -/
def getAverageDuration (reqs : List RequestInfo) : ℚ :=
  if reqs.length = 0 then 0
  else
    jsRound2 (((reqs.map (fun r => r.duration.getD 0)).sum : ℚ) / (reqs.length : ℚ))

/-- Embedding of RequestTracker.toJson as the parsed value of the produced
text: a summary object over the selected scope and the serialised
observations of that scope; nowIso stands for the ISO timestamp the Date
collaborator produces. -/
def toJson (localRequests globalRequests : List RequestInfo) (useGlobalData : Bool)
    (nowIso : String) : JsVal :=
  let requestsToUse := if useGlobalData then globalRequests else localRequests
  JsVal.obj
    [("summary", JsVal.obj
        [("totalRequests", JsVal.num requestsToUse.length),
         ("uniqueEndpoints", JsVal.num (uniqueEndpointList requestsToUse).length),
         ("successRate", JsVal.num (getSuccessRate requestsToUse)),
         ("averageDuration", JsVal.num (getAverageDuration requestsToUse)),
         ("timestamp", JsVal.str nowIso)]),
     ("requests", JsVal.arr (requestsToUse.map encodeRequest))]

/-- One CSV data row of RequestTracker.toCsv: a falsy (missing or 0) status
or duration is rendered as the literal N/A; iso stands for the ISO rendering
of the timestamp by the Date collaborator. -/
def csvRow (r : RequestInfo) (iso : Nat → String) : List String :=
  [r.method, "\"" ++ r.url ++ "\"",
   (match r.status with
    | some n => if n ≠ 0 then toString n else "N/A"
    | none => "N/A"),
   (match r.duration with
    | some n => if n ≠ 0 then toString n else "N/A"
    | none => "N/A"),
   iso r.timestamp]

/-- Embedding of RequestTracker.toCsv: optional header row, then one
comma-joined row per observation of the selected scope. -/
def toCsv (includeHeaders : Bool) (reqs : List RequestInfo) (iso : Nat → String) : String :=
  (if includeHeaders then "Method,URL,Status,Duration(ms),Timestamp\n" else "")
    ++ String.join (reqs.map (fun r => String.intercalate "," (csvRow r iso) ++ "\n"))

/-- The nearest-rank percentile exactly as the specification words it: the
element of the ascending sort at index the ceiling of p over 100 times n,
minus 1, with the index clamped to the range 0 to n minus 1. -/
def nearestRank (ds : List Nat) (p : Nat) : Nat :=
  let sorted := ds.insertionSort (· ≤ ·)
  let idx : Nat := min (Int.ceil (((p : ℚ) / 100) * (ds.length : ℚ)) - 1).toNat (ds.length - 1)
  (sorted.get? idx).getD 0

/-- Catalog fixture with a single declared GET operation, for the concrete
instantiations. -/
def specUsers : OpenAPISpec := ⟨[("/users", [("get", {})])]⟩

/-- Observation fixture posted to the local sequence of the analysing
tracker in the concrete instantiations. -/
def obsLocalA : RequestInfo :=
  { method := "GET", url := "https://h/a", timestamp := 0,
    status := some 200, duration := some 5 }

/-- Observation fixture held in the shared sequence in the concrete
instantiations. -/
def obsSharedB : RequestInfo :=
  { method := "GET", url := "https://h/b", timestamp := 1,
    status := some 200, duration := some 5 }

/-- Second shared observation fixture, same path as obsSharedB under another
method. -/
def obsSharedC : RequestInfo :=
  { method := "POST", url := "https://h/b", timestamp := 2,
    status := some 201, duration := some 7 }

/-- Process-state fixture: tracker 0 holds one local observation, the shared
sequence holds one, and every tracker has global tracking enabled. -/
def procFixture : ProcessState :=
  { globalRequests := [obsSharedB]
    localRequests := fun i => if i = 0 then [obsLocalA] else []
    useGlobalTracking := fun _ => true }

/-- Heap fixture: reference 0 holds the local store array, reference 1 the
shared store array, references from 2 on are unallocated. -/
def heapFixture : RefTracker :=
  { requestsRef := 0
    globalRef := 1
    heap :=
      { arrays := fun r => if r = 0 then [obsLocalA] else if r = 1 then [obsSharedB] else []
        nextRef := 2 } }

/-!
Theorems.  Helper lemmas come first, then one theorem per claim together
with its witness or counterexample.
-/

/-- A quantifiable atom produced by plainTok that is plain must be the
literal translation of its character. -/
theorem plainTok_plain (c : Char) (t : PathTok) (h : plainTok c = some t)
    (hl : t.isLiteralOrClass = true) : t = PathTok.lit c := by
  unfold plainTok at h
  split_ifs at h with h1 h2 <;>
    first
      | (cases h <;> rfl)
      | (cases h; simp [PathTok.isLiteralOrClass] at hl)

/-- When the literal re-scan of an unterminated brace run succeeds on a
plain pattern, it is the character-for-character translation. -/
theorem plainScan_plain (l : List Char) :
    ∀ toks : List PathTok, plainScan l = some toks →
      toks.all PathTok.isLiteralOrClass = true → toks = l.map PathTok.lit := by
  induction l with
  | nil =>
      intro toks h _
      simp only [plainScan, Option.some.injEq] at h
      simp [← h]
  | cons c rest ih =>
      intro toks h hall
      cases rest with
      | nil =>
          by_cases hc : c = '+'
          · rw [show plainScan [c] = none by simp [plainScan, hc]] at h
            cases h
          · rw [show plainScan [c] = (plainTok c).map ([·]) by simp [plainScan, hc]] at h
            cases hp : plainTok c with
            | none => rw [hp] at h; cases h
            | some t =>
                rw [hp] at h
                have ht : toks = [t] := by simpa using h.symm
                subst ht
                have h1 : t.isLiteralOrClass = true := by simpa using hall
                simp [plainTok_plain c t hp h1]
      | cons c2 rest2 =>
          by_cases hc : c = '+'
          · rw [show plainScan (c :: c2 :: rest2) = none by simp [plainScan, hc]] at h
            cases h
          · cases hp : plainTok c with
            | none =>
                rw [show plainScan (c :: c2 :: rest2) = none by
                    simp [plainScan, hc, hp]] at h
                cases h
            | some t =>
                by_cases hq : c2 = '+'
                · rw [show plainScan (c :: c2 :: rest2)
                      = (plainScan rest2).map (PathTok.plus t :: ·) by
                      simp [plainScan, hc, hp, hq]] at h
                  cases hr : plainScan rest2 with
                  | none => rw [hr] at h; cases h
                  | some ts =>
                      rw [hr] at h
                      have ht : toks = PathTok.plus t :: ts := by simpa using h.symm
                      rw [ht] at hall
                      simp [PathTok.isLiteralOrClass] at hall
                · rw [show plainScan (c :: c2 :: rest2)
                      = (plainScan (c2 :: rest2)).map (t :: ·) by
                      simp [plainScan, hc, hp, hq]] at h
                  cases hr : plainScan (c2 :: rest2) with
                  | none => rw [hr] at h; cases h
                  | some ts =>
                      rw [hr] at h
                      have hts : toks = t :: ts := by simpa using h.symm
                      subst hts
                      have hsplit : t.isLiteralOrClass = true ∧
                          ts.all PathTok.isLiteralOrClass = true := by
                        simp only [List.all_cons, Bool.and_eq_true] at hall
                        exact hall
                      simp [plainTok_plain c t hp hsplit.1, ih ts hr hsplit.2]

/-- When template compilation succeeds on a plain pattern, it agrees with
the specification compilation, whatever the scan state. -/
theorem compileAux_plain (cs : List Char) :
    ∀ (st : Option (List Char)) (toks : List PathTok),
      compileAux st cs = some toks → toks.all PathTok.isLiteralOrClass = true →
      specCompileAux st cs = toks := by
  induction cs with
  | nil =>
      intro st toks h hall
      match st with
      | none =>
          simp only [compileAux, Option.some.injEq] at h
          simp [specCompileAux, ← h]
      | some acc =>
          simp only [compileAux] at h
          simp only [specCompileAux]
          exact (plainScan_plain _ _ h hall).symm
  | cons c rest ih =>
      intro st toks h hall
      match st with
      | none =>
          by_cases hbrace : c = '{'
          · subst hbrace
            rw [show compileAux none ('{' :: rest) = compileAux (some []) rest by
                cases rest <;> rfl] at h
            rw [show specCompileAux none ('{' :: rest) = specCompileAux (some []) rest by
                simp [specCompileAux]]
            exact ih _ _ h hall
          · by_cases hplus : c = '+'
            · subst hplus
              rw [show compileAux none ('+' :: rest) = none by
                  cases rest <;> simp [compileAux, hbrace]] at h
              cases h
            · have hsp : specCompileAux none (c :: rest)
                  = PathTok.lit c :: specCompileAux none rest := by
                simp [specCompileAux, hbrace]
              cases hp : plainTok c with
              | none =>
                  rw [show compileAux none (c :: rest) = none by
                      simp [compileAux, hbrace, hplus, hp]] at h
                  cases h
              | some t =>
                  cases rest with
                  | nil =>
                      rw [show compileAux none [c] = some [t] by
                          simp [compileAux, hbrace, hplus, hp]] at h
                      have ht : toks = [t] := by simpa using h.symm
                      subst ht
                      have h1 : t.isLiteralOrClass = true := by simpa using hall
                      rw [hsp]
                      simp [specCompileAux, plainTok_plain c t hp h1]
                  | cons c2 rest2 =>
                      by_cases hq : c2 = '+'
                      · rw [show compileAux none (c :: c2 :: rest2)
                            = (compileAux none rest2).map (PathTok.plus t :: ·) by
                            simp [compileAux, hbrace, hplus, hp, hq]] at h
                        cases hr : compileAux none rest2 with
                        | none => rw [hr] at h; cases h
                        | some ts =>
                            rw [hr] at h
                            have ht : toks = PathTok.plus t :: ts := by simpa using h.symm
                            rw [ht] at hall
                            simp [PathTok.isLiteralOrClass] at hall
                      · rw [show compileAux none (c :: c2 :: rest2)
                            = (compileAux none (c2 :: rest2)).map (t :: ·) by
                            simp [compileAux, hbrace, hplus, hp, hq]] at h
                        cases hr : compileAux none (c2 :: rest2) with
                        | none => rw [hr] at h; cases h
                        | some ts =>
                            rw [hr] at h
                            have hts : toks = t :: ts := by simpa using h.symm
                            subst hts
                            have hsplit : t.isLiteralOrClass = true ∧
                                ts.all PathTok.isLiteralOrClass = true := by
                              simp only [List.all_cons, Bool.and_eq_true] at hall
                              exact hall
                            rw [hsp, ih _ _ hr hsplit.2, plainTok_plain c t hp hsplit.1]
      | some acc =>
          by_cases hclose : c = '}'
          · by_cases hacc : acc.isEmpty
            · cases rest with
              | nil =>
                  rw [show compileAux (some acc) [c]
                      = some [PathTok.lit '{', PathTok.lit '}'] by
                      simp [compileAux, hclose, hacc]] at h
                  have ht : toks = [PathTok.lit '{', PathTok.lit '}'] := by
                    simpa using h.symm
                  subst ht
                  simp [specCompileAux, hclose, hacc]
              | cons c2 rest2 =>
                  by_cases hq : c2 = '+'
                  · rw [show compileAux (some acc) (c :: c2 :: rest2)
                        = (compileAux none rest2).map
                            (fun ts => PathTok.lit '{' :: PathTok.plus (PathTok.lit '}') :: ts) by
                        simp [compileAux, hclose, hacc, hq]] at h
                    cases hr : compileAux none rest2 with
                    | none => rw [hr] at h; cases h
                    | some ts =>
                        rw [hr] at h
                        have ht : toks
                            = PathTok.lit '{' :: PathTok.plus (PathTok.lit '}') :: ts := by
                          simpa using h.symm
                        rw [ht] at hall
                        simp [PathTok.isLiteralOrClass] at hall
                  · rw [show compileAux (some acc) (c :: c2 :: rest2)
                        = (compileAux none (c2 :: rest2)).map
                            (fun ts => PathTok.lit '{' :: PathTok.lit '}' :: ts) by
                        simp [compileAux, hclose, hacc, hq]] at h
                    cases hr : compileAux none (c2 :: rest2) with
                    | none => rw [hr] at h; cases h
                    | some ts =>
                        rw [hr] at h
                        have hts : toks = PathTok.lit '{' :: PathTok.lit '}' :: ts := by
                          simpa using h.symm
                        subst hts
                        have hall2 : ts.all PathTok.isLiteralOrClass = true := by
                          simp only [List.all_cons, Bool.and_eq_true] at hall
                          exact hall.2.2
                        rw [show specCompileAux (some acc) (c :: c2 :: rest2)
                            = PathTok.lit '{' :: PathTok.lit '}'
                                :: specCompileAux none (c2 :: rest2) by
                            simp [specCompileAux, hclose, hacc]]
                        rw [ih _ _ hr hall2]
            · cases rest with
              | nil =>
                  rw [show compileAux (some acc) [c] = some [PathTok.wildcard] by
                      simp [compileAux, hclose, hacc]] at h
                  have ht : toks = [PathTok.wildcard] := by simpa using h.symm
                  subst ht
                  simp [specCompileAux, hclose, hacc]
              | cons c2 rest2 =>
                  by_cases hq : c2 = '+'
                  · rw [show compileAux (some acc) (c :: c2 :: rest2) = none by
                        simp [compileAux, hclose, hacc, hq]] at h
                    cases h
                  · rw [show compileAux (some acc) (c :: c2 :: rest2)
                        = (compileAux none (c2 :: rest2)).map (PathTok.wildcard :: ·) by
                        simp [compileAux, hclose, hacc, hq]] at h
                    cases hr : compileAux none (c2 :: rest2) with
                    | none => rw [hr] at h; cases h
                    | some ts =>
                        rw [hr] at h
                        have hts : toks = PathTok.wildcard :: ts := by simpa using h.symm
                        subst hts
                        have hall2 : ts.all PathTok.isLiteralOrClass = true := by
                          simp only [List.all_cons, Bool.and_eq_true] at hall
                          exact hall.2
                        rw [show specCompileAux (some acc) (c :: c2 :: rest2)
                            = PathTok.wildcard :: specCompileAux none (c2 :: rest2) by
                            simp [specCompileAux, hclose, hacc]]
                        rw [ih _ _ hr hall2]
          · rw [show compileAux (some acc) (c :: rest)
                = compileAux (some (c :: acc)) rest by
                cases rest <;> simp [compileAux, hclose]] at h
            rw [show specCompileAux (some acc) (c :: rest)
                = specCompileAux (some (c :: acc)) rest by
                simp [specCompileAux, hclose]]
            exact ih _ _ h hall

/-- A single-literal pattern accepts exactly the one-character path. -/
theorem toksMatch_single_lit (c : Char) (cs : List Char) :
    toksMatch [PathTok.lit c] cs = true ↔ cs = [c] := by
  match cs with
  | [] => simp [toksMatch]
  | [c2] => simp [toksMatch, eq_comm]
  | c2 :: c3 :: cs => simp [toksMatch]

/-- C1: for every attached catalog and every analysed scope, analyze reports
coveragePercentage 0 with an empty uncovered list when the catalog declares no
operation, and otherwise the exact unrounded value covered over total times
100. -/
theorem analyze_coverage_formula_c1 (spec : OpenAPISpec)
    (localR globalR : List RequestInfo) (g : Bool) :
    ((analyze spec localR globalR g).totalEndpoints = 0 →
      (analyze spec localR globalR g).coveragePercentage = 0 ∧
      (analyze spec localR globalR g).uncoveredEndpoints = []) ∧
    (0 < (analyze spec localR globalR g).totalEndpoints →
      (analyze spec localR globalR g).coveragePercentage =
        ((analyze spec localR globalR g).coveredEndpoints : ℚ) /
          ((analyze spec localR globalR g).totalEndpoints : ℚ) * 100) := by
  have hto : (analyze spec localR globalR g).totalEndpoints = (getEndpoints spec).length := rfl
  have hcov : (analyze spec localR globalR g).coveredEndpoints =
      (getCoveredEndpoints (matchRequests spec (if g then globalR else localR))).length := rfl
  have hpct : (analyze spec localR globalR g).coveragePercentage =
      (if 0 < (getEndpoints spec).length then
        (((getCoveredEndpoints (matchRequests spec (if g then globalR else localR))).length : ℚ) /
          ((getEndpoints spec).length : ℚ)) * 100
      else 0) := rfl
  have hunc : (analyze spec localR globalR g).uncoveredEndpoints =
      getUncoveredEndpoints (getEndpoints spec)
        (getCoveredEndpoints (matchRequests spec (if g then globalR else localR))) := rfl
  constructor
  · intro h
    rw [hto] at h
    refine ⟨?_, ?_⟩
    · rw [hpct, if_neg (by omega)]
    · rw [hunc, List.length_eq_zero.mp h]
      rfl
  · intro h
    rw [hto] at h
    rw [hpct, hcov, hto, if_pos h]

/-- Witness for C1 at an empty catalog and at a one-operation catalog. -/
theorem analyze_coverage_formula_c1_witness :
    ((analyze ⟨[]⟩ [obsLocalA] [] false).coveragePercentage = 0 ∧
      (analyze ⟨[]⟩ [obsLocalA] [] false).uncoveredEndpoints = []) ∧
    (analyze specUsers [] [] false).coveragePercentage =
      ((analyze specUsers [] [] false).coveredEndpoints : ℚ) /
        ((analyze specUsers [] [] false).totalEndpoints : ℚ) * 100 :=
  ⟨(analyze_coverage_formula_c1 ⟨[]⟩ [obsLocalA] [] false).1 (by decide),
   (analyze_coverage_formula_c1 specUsers [] [] false).2 (by decide)⟩

/-- C2 (amended): over plain templates — those whose compiled pattern is
only literal characters and parameter classes, equivalently templates with
no unescaped regex metacharacter outside their parameter bodies — matchPath
accepts a path exactly when the specification matching does: each brace
group consumes one non-empty slash-free run, every other character matches
itself case-sensitively, anchored at both ends.  The concrete examples of
the claim hold, and the root template matches only the root path.  A
template carrying an unescaped metacharacter differs: the dot matches any
character and a plus quantifies the preceding atom, see the
counterexample. -/
theorem matchPath_template_semantics_c2 :
    (∀ tpl path : String, modelledPlainTemplate tpl = true →
        templateMatches tpl path = specTemplateMatches tpl path) ∧
    templateMatches "/users/{id}" "/users/123" = true ∧
    templateMatches "/users/{id}" "/users" = false ∧
    templateMatches "/users/{id}" "/users/123/posts" = false ∧
    (∀ path : String, templateMatches "/" path = true ↔ path = "/") := by
  refine ⟨?_, by decide, by decide, by decide, ?_⟩
  · intro tpl path hplain
    simp only [modelledPlainTemplate] at hplain
    cases hc : compileTemplate tpl.data with
    | none => rw [hc] at hplain; cases hplain
    | some toks =>
        rw [hc] at hplain
        have hc' : compileAux none tpl.data = some toks := hc
        have hs' : specCompileAux none tpl.data = toks :=
          compileAux_plain tpl.data none toks hc' hplain
        simp only [templateMatches, specTemplateMatches, compileTemplate,
          specCompileTemplate, hc', hs']
  · intro path
    have h1 : compileTemplate "/".data = some [PathTok.lit '/'] := by decide
    constructor
    · intro h
      have h2 : toksMatch [PathTok.lit '/'] path.data = true := by
        simpa [templateMatches, h1] using h
      have h3 : path.data = ['/'] := (toksMatch_single_lit '/' path.data).mp h2
      cases path with
      | mk data => rw [show data = ['/'] from h3]
    · intro h
      rw [h]
      decide

/-- Witness for C2 at a concrete plain template. -/
theorem matchPath_template_semantics_c2_witness :
    templateMatches "/users/{id}" "/users/9" = specTemplateMatches "/users/{id}" "/users/9" :=
  matchPath_template_semantics_c2.1 "/users/{id}" "/users/9" (by decide)

/-- Counterexample for C2 as stated: the built regex keeps every unescaped
metacharacter live.  A dot template accepts the path with x in place of the
dot; a plus template accepts the path missing the plus (the quantifier
consumes the preceding atom) and refuses the character-for-character path
containing the literal plus.  Character-for-character matching decides each
of the three the other way. -/
theorem matchPath_metachar_counterexample_c2 :
    (templateMatches "/a.b" "/axb" = true ∧ specTemplateMatches "/a.b" "/axb" = false) ∧
    (templateMatches "/a+b" "/ab" = true ∧ specTemplateMatches "/a+b" "/ab" = false) ∧
    (templateMatches "/a+b" "/a+b" = false ∧ specTemplateMatches "/a+b" "/a+b" = true) := by
  decide

/-- C3 (code bug exhibit): analysing the shared scope computes totalRequests
and the distributions from the shared sequence, but generateRequestSummary
reads uniqueEndpoints from this.tracker.getUniqueEndpoints(), the analysing
tracker's local sequence.  Here the shared scope has two distinct
method-and-path combinations yet the report says one, the local count. -/
theorem analyze_shared_uniqueEndpoints_bug_c3 :
    (analyze ⟨[]⟩ [obsLocalA] [obsSharedB, obsSharedC] true).requestSummary.totalRequests = 2 ∧
    (analyze ⟨[]⟩ [obsLocalA] [obsSharedB, obsSharedC] true).requestSummary.uniqueEndpoints
      = 1 ∧
    (uniqueEndpointList [obsSharedB, obsSharedC]).length = 2 := by
  decide

/-- C4: when the delegated collaborator call fails, the interceptor first
appends the finalised observation (uppercased method, url, start timestamp,
elapsed duration, no status) to its local sequence — and to the shared
sequence exactly when global tracking is enabled — leaves every other
sequence unchanged, and re-raises the error unchanged. -/
theorem trackRequest_failure_c4 {ε : Type} (s : ProcessState) (i : Nat)
    (method url : String) (startTime endTime : Nat) (e : ε) :
    (trackRequest s i method url startTime endTime (Except.error e)).2 = Except.error e ∧
    (trackRequest s i method url startTime endTime (Except.error e)).1.localRequests i =
      s.localRequests i ++
        [{ method := upperStr method, url := url, timestamp := startTime,
           status := none, duration := some (endTime - startTime) }] ∧
    (∀ j, j ≠ i →
      (trackRequest s i method url startTime endTime (Except.error e)).1.localRequests j =
        s.localRequests j) ∧
    (trackRequest s i method url startTime endTime (Except.error e)).1.globalRequests =
      (if s.useGlobalTracking i then
        s.globalRequests ++
          [{ method := upperStr method, url := url, timestamp := startTime,
             status := none, duration := some (endTime - startTime) }]
      else s.globalRequests) ∧
    (trackRequest s i method url startTime endTime (Except.error e)).1.useGlobalTracking =
      s.useGlobalTracking := by
  refine ⟨rfl, ?_, ?_, rfl, rfl⟩
  · simp [trackRequest, Function.update_same]
  · intro j hj
    simp [trackRequest, Function.update_noteq hj]

/-- Witness for C4 at a concrete failing call on tracker 0, observing tracker
1 untouched. -/
theorem trackRequest_failure_c4_witness :
    (trackRequest procFixture 0 "get" "https://h/a" 10 17
        (Except.error "boom")).2 = Except.error "boom" ∧
    (trackRequest procFixture 0 "get" "https://h/a" 10 17
        (Except.error "boom")).1.localRequests 0 =
      procFixture.localRequests 0 ++
        [{ method := upperStr "get", url := "https://h/a", timestamp := 10,
           status := none, duration := some (17 - 10) }] ∧
    (trackRequest procFixture 0 "get" "https://h/a" 10 17
        (Except.error "boom")).1.localRequests 1 = procFixture.localRequests 1 ∧
    (trackRequest procFixture 0 "get" "https://h/a" 10 17
        (Except.error "boom")).1.globalRequests =
      (if procFixture.useGlobalTracking 0 then
        procFixture.globalRequests ++
          [{ method := upperStr "get", url := "https://h/a", timestamp := 10,
             status := none, duration := some (17 - 10) }]
      else procFixture.globalRequests) ∧
    (trackRequest procFixture 0 "get" "https://h/a" 10 17
        (Except.error "boom")).1.useGlobalTracking = procFixture.useGlobalTracking :=
  let T := trackRequest_failure_c4 (ε := String) procFixture 0 "get" "https://h/a" 10 17 "boom"
  ⟨T.1, T.2.1, T.2.2.1 1 (by decide), T.2.2.2.1, T.2.2.2.2⟩

/-- C7: clearing the shared store empties only the process-wide shared
sequence and leaves every tracker's local sequence unchanged; clearing a
tracker's local store empties only that tracker's local sequence and leaves
the shared sequence and every other tracker's local sequence unchanged. -/
theorem clear_scope_frame_c7 (s : ProcessState) (i j : Nat) :
    (clearGlobalRequests s).globalRequests = [] ∧
    (clearGlobalRequests s).localRequests = s.localRequests ∧
    (clearRequests s i).localRequests i = [] ∧
    (j ≠ i → (clearRequests s i).localRequests j = s.localRequests j) ∧
    (clearRequests s i).globalRequests = s.globalRequests := by
  refine ⟨rfl, rfl, ?_, ?_, rfl⟩
  · simp [clearRequests, Function.update_same]
  · intro hj
    simp [clearRequests, Function.update_noteq hj]

/-- Witness for C7 on the two-tracker fixture. -/
theorem clear_scope_frame_c7_witness :
    (clearGlobalRequests procFixture).globalRequests = [] ∧
    (clearGlobalRequests procFixture).localRequests = procFixture.localRequests ∧
    (clearRequests procFixture 0).localRequests 0 = [] ∧
    (clearRequests procFixture 0).localRequests 1 = procFixture.localRequests 1 ∧
    (clearRequests procFixture 0).globalRequests = procFixture.globalRequests :=
  let T := clear_scope_frame_c7 procFixture 0 1
  ⟨T.1, T.2.1, T.2.2.1, T.2.2.2.1 (by decide), T.2.2.2.2⟩

/-- The natural ceiling division by 100 computes the rational ceiling. -/
theorem ceilDiv_cast_hundred (a : ℕ) :
    ((ceilDiv a 100 : ℕ) : ℤ) = ⌈(a : ℚ) / 100⌉ := by
  have hkey1 : 100 * ceilDiv a 100 ≤ a + 99 := by unfold ceilDiv; omega
  have hkey2 : a ≤ 100 * ceilDiv a 100 := by unfold ceilDiv; omega
  rw [eq_comm, Int.ceil_eq_iff]
  constructor
  · rw [lt_div_iff₀ (by norm_num : (0:ℚ) < 100)]
    have k : ((100 * ceilDiv a 100 : ℕ) : ℚ) ≤ ((a : ℚ)) + 99 := by exact_mod_cast hkey1
    push_cast at k ⊢
    linarith
  · rw [div_le_iff₀ (by norm_num : (0:ℚ) < 100)]
    have k : ((a : ℕ) : ℚ) ≤ ((100 * ceilDiv a 100 : ℕ) : ℚ) := by exact_mod_cast hkey2
    push_cast at k ⊢
    linarith

/-- On a non-empty population and a percentile between 1 and 100, the source
percentile computation is exactly the specified nearest-rank formula. -/
theorem calculatePercentile_eq_nearestRank (ds : List Nat) (p : Nat)
    (hds : ds ≠ []) (hp1 : 1 ≤ p) (hp2 : p ≤ 100) :
    calculatePercentile ds p = nearestRank ds p := by
  have hlen : (ds.insertionSort (· ≤ ·)).length = ds.length :=
    (List.perm_insertionSort _ _).length_eq
  have hn : 0 < ds.length := List.length_pos.mpr hds
  have hceil : ((ceilDiv (p * ds.length) 100 : ℕ) : ℤ) = ⌈((p * ds.length : ℕ) : ℚ) / 100⌉ :=
    ceilDiv_cast_hundred _
  have hq : ((p : ℚ) / 100) * (ds.length : ℚ) = ((p * ds.length : ℕ) : ℚ) / 100 := by
    push_cast; ring
  have hpn1 : 0 < p * ds.length := Nat.mul_pos (by omega) hn
  have hpn2 : p * ds.length ≤ 100 * ds.length := Nat.mul_le_mul_right _ hp2
  have hv1 : 1 ≤ ceilDiv (p * ds.length) 100 := by unfold ceilDiv; omega
  have hv2 : ceilDiv (p * ds.length) 100 ≤ ds.length := by unfold ceilDiv; omega
  have hidx : min (Int.toNat (⌈((p : ℚ) / 100) * (ds.length : ℚ)⌉ - 1)) (ds.length - 1)
      = ceilDiv (p * ds.length) 100 - 1 := by
    rw [hq, ← hceil]
    have h1 : (((ceilDiv (p * ds.length) 100 : ℕ) : ℤ) - 1).toNat
        = ceilDiv (p * ds.length) 100 - 1 := by omega
    rw [h1, Nat.min_eq_left (by omega)]
  simp only [calculatePercentile, nearestRank, hlen]
  rw [if_neg (by omega), hidx]

/-- C5: with at least one observation carrying a truthy duration, the
analyzer reports p95 and p99 as the nearest-rank elements of the ascending
duration sort, index the ceiling of p over 100 times n minus 1, clamped to
the valid range; with no duration at all the whole performance result is
null rather than 0. -/
theorem performance_percentiles_c5 :
    (∀ reqs : List RequestInfo, durationsOf reqs ≠ [] →
      ∃ pm, analyzePerformance reqs = some pm ∧
        pm.p95ResponseTime = nearestRank (durationsOf reqs) 95 ∧
        pm.p99ResponseTime = nearestRank (durationsOf reqs) 99) ∧
    (∀ reqs : List RequestInfo, (∀ r ∈ reqs, r.duration = none) →
      analyzePerformance reqs = none) := by
  constructor
  · intro reqs hne
    have hempty : (durationsOf reqs).isEmpty = false := by
      cases hd : durationsOf reqs with
      | nil => exact absurd hd hne
      | cons a l => simp
    refine ⟨{ averageResponseTime :=
                jsRound (((durationsOf reqs).sum : ℚ) / ((durationsOf reqs).length : ℚ))
              minResponseTime := ((durationsOf reqs).min?).getD 0
              maxResponseTime := ((durationsOf reqs).max?).getD 0
              p95ResponseTime := calculatePercentile (durationsOf reqs) 95
              p99ResponseTime := calculatePercentile (durationsOf reqs) 99 }, ?_, ?_, ?_⟩
    · simp [analyzePerformance, hempty]
    · exact calculatePercentile_eq_nearestRank _ _ hne (by omega) (by omega)
    · exact calculatePercentile_eq_nearestRank _ _ hne (by omega) (by omega)
  · intro reqs hall
    have hnil : durationsOf reqs = [] := by
      simp only [durationsOf, List.filterMap_eq_nil_iff]
      intro r hr
      simp [hall r hr]
    simp [analyzePerformance, hnil]

/-- Witness for C5 on three observations with durations and on one
duration-free observation. -/
theorem performance_percentiles_c5_witness :
    (∃ pm, analyzePerformance [obsSharedB, obsSharedC, obsLocalA] = some pm ∧
        pm.p95ResponseTime = nearestRank (durationsOf [obsSharedB, obsSharedC, obsLocalA]) 95 ∧
        pm.p99ResponseTime = nearestRank (durationsOf [obsSharedB, obsSharedC, obsLocalA]) 99) ∧
    analyzePerformance [{ method := "GET", url := "u", timestamp := 0 }] = none :=
  ⟨performance_percentiles_c5.1 [obsSharedB, obsSharedC, obsLocalA] (by decide),
   performance_percentiles_c5.2 [{ method := "GET", url := "u", timestamp := 0 }]
     (by decide)⟩

/-- A list has a satisfying element exactly when its filtered length is
positive. -/
theorem any_eq_filter_length_pos {α : Type} (l : List α) (p : α → Bool) :
    l.any p = decide (0 < (l.filter p).length) := by
  induction l with
  | nil => simp
  | cons a l ih => by_cases h : p a <;> simp [h, ih, List.filter_cons]

/-- C6 (amended): the recommendation list carries the critical-endpoints
message precisely when some uncovered operation has method POST, PUT or
DELETE; the engine's filter does not include PATCH. -/
theorem recommendations_critical_iff_c6 (report : CoverageReport) (ea : ErrorAnalysis) :
    (generateRecommendations report ea).any Recommendation.isCriticalUntested =
      report.uncoveredEndpoints.any isCriticalMethod := by
  conv_rhs => rw [any_eq_filter_length_pos]
  simp only [generateRecommendations, List.any_append]
  split_ifs <;> simp_all [Recommendation.isCriticalUntested]

/-- Counterexample for C6 as stated: a single uncovered PATCH operation is a
mutating method of the claim, yet the engine pushes no critical-endpoints
recommendation for it. -/
theorem recommendations_patch_counterexample_c6 :
    ((generateRecommendations
        { totalEndpoints := 1, coveredEndpoints := 0, coveragePercentage := 0,
          uncoveredEndpoints := [{ path := "/x", method := "PATCH" }],
          extraEndpoints := [],
          requestSummary :=
            { totalRequests := 0, uniqueEndpoints := 0,
              methodDistribution := [], statusDistribution := [] } }
        { errorRate := 0 }).any Recommendation.isCriticalUntested = false) ∧
    (([{ path := "/x", method := "PATCH" }] : List OpenAPIEndpoint).any
        (fun ep => ep.method == "POST" || ep.method == "PUT" ||
          ep.method == "PATCH" || ep.method == "DELETE") = true) := by
  decide

/-- C8: the parsed JSON export satisfies requests.length equal to
summary.totalRequests, over either scope. -/
theorem toJson_roundtrip_c8 (localR globalR : List RequestInfo) (g : Bool) (nowIso : String) :
    ∃ (reqs : List JsVal) (total : ℚ),
      objField (toJson localR globalR g nowIso) "requests" = some (JsVal.arr reqs) ∧
      (objField (toJson localR globalR g nowIso) "summary").bind
        (fun s => objField s "totalRequests") = some (JsVal.num total) ∧
      (reqs.length : ℚ) = total := by
  refine ⟨(if g then globalR else localR).map encodeRequest,
    ((if g then globalR else localR).length : ℚ), rfl, rfl, by simp⟩

/-- C9: the observation reads return fresh copies: the returned reference
holds the store contents, the read leaves the store untouched, and a write
through the returned reference leaves the store arrays unchanged, so a
subsequent read sees the same observations. -/
theorem getRequests_fresh_copy_c9 (t : RefTracker) (xs ys : List RequestInfo)
    (hl : t.requestsRef < t.heap.nextRef) (hg : t.globalRef < t.heap.nextRef) :
    ((getRequestsRef t).1.heap.arrays (getRequestsRef t).2 =
        t.heap.arrays t.requestsRef ∧
      (getRequestsRef t).1.requestsRef = t.requestsRef ∧
      (getRequestsRef t).1.heap.arrays t.requestsRef = t.heap.arrays t.requestsRef ∧
      (writeArray (getRequestsRef t).1.heap (getRequestsRef t).2 xs).arrays t.requestsRef =
        t.heap.arrays t.requestsRef) ∧
    ((getGlobalRequestsRef t).1.heap.arrays (getGlobalRequestsRef t).2 =
        t.heap.arrays t.globalRef ∧
      (getGlobalRequestsRef t).1.globalRef = t.globalRef ∧
      (getGlobalRequestsRef t).1.heap.arrays t.globalRef = t.heap.arrays t.globalRef ∧
      (writeArray (getGlobalRequestsRef t).1.heap (getGlobalRequestsRef t).2 ys).arrays
          t.globalRef = t.heap.arrays t.globalRef) := by
  have hne1 : t.requestsRef ≠ t.heap.nextRef := by omega
  have hne2 : t.globalRef ≠ t.heap.nextRef := by omega
  refine ⟨⟨?_, rfl, ?_, ?_⟩, ⟨?_, rfl, ?_, ?_⟩⟩ <;>
    simp [getRequestsRef, getGlobalRequestsRef, allocCopy, writeArray,
      Function.update_same, Function.update_noteq, hne1, hne2]

/-- Witness for C9 on the two-array heap fixture. -/
theorem getRequests_fresh_copy_c9_witness :
    ((getRequestsRef heapFixture).1.heap.arrays (getRequestsRef heapFixture).2 =
        heapFixture.heap.arrays heapFixture.requestsRef ∧
      (getRequestsRef heapFixture).1.requestsRef = heapFixture.requestsRef ∧
      (getRequestsRef heapFixture).1.heap.arrays heapFixture.requestsRef =
        heapFixture.heap.arrays heapFixture.requestsRef ∧
      (writeArray (getRequestsRef heapFixture).1.heap (getRequestsRef heapFixture).2
          []).arrays heapFixture.requestsRef =
        heapFixture.heap.arrays heapFixture.requestsRef) ∧
    ((getGlobalRequestsRef heapFixture).1.heap.arrays (getGlobalRequestsRef heapFixture).2 =
        heapFixture.heap.arrays heapFixture.globalRef ∧
      (getGlobalRequestsRef heapFixture).1.globalRef = heapFixture.globalRef ∧
      (getGlobalRequestsRef heapFixture).1.heap.arrays heapFixture.globalRef =
        heapFixture.heap.arrays heapFixture.globalRef ∧
      (writeArray (getGlobalRequestsRef heapFixture).1.heap
          (getGlobalRequestsRef heapFixture).2 []).arrays heapFixture.globalRef =
        heapFixture.heap.arrays heapFixture.globalRef) :=
  getRequests_fresh_copy_c9 heapFixture [] [] (by decide) (by decide)

/-- C10: a defined-but-zero duration or status is falsy and treated exactly
like a missing one: the CSV cells render the literal N/A as for the absent
fields, the analyzer's duration population drops zero durations (null
metrics when no other duration exists), and a zero status is counted in no
status bucket. -/
theorem falsy_zero_c10 :
    (∀ (r : RequestInfo) (iso : Nat → String), r.duration = some 0 → r.status = some 0 →
      csvRow r iso = [r.method, "\"" ++ r.url ++ "\"", "N/A", "N/A", iso r.timestamp] ∧
      csvRow r iso = csvRow { r with duration := none, status := none } iso) ∧
    (∀ (r : RequestInfo) (reqs : List RequestInfo), r.duration = some 0 →
      durationsOf (r :: reqs) = durationsOf reqs) ∧
    (∀ reqs : List RequestInfo, (∀ r ∈ reqs, r.duration = none ∨ r.duration = some 0) →
      analyzePerformance reqs = none) ∧
    (∀ (lr reqs : List RequestInfo) (r : RequestInfo), r.status = some 0 →
      (generateRequestSummary lr (reqs ++ [r])).statusDistribution =
        (generateRequestSummary lr reqs).statusDistribution) := by
  refine ⟨?_, ?_, ?_, ?_⟩
  · intro r iso hd hs
    constructor <;> simp [csvRow, hd, hs]
  · intro r reqs hd
    simp [durationsOf, hd]
  · intro reqs hall
    have hnil : durationsOf reqs = [] := by
      simp only [durationsOf, List.filterMap_eq_nil_iff]
      intro r hr
      rcases hall r hr with h | h <;> simp [h]
    simp [analyzePerformance, hnil]
  · intro lr reqs r hs
    simp [generateRequestSummary, List.foldl_append, hs]

/-- Witness for C10 on an observation whose status and duration are both
defined and zero. -/
theorem falsy_zero_c10_witness :
    (csvRow { method := "GET", url := "u", timestamp := 0,
              status := some 0, duration := some 0 } (fun _ => "ts") =
      ["GET", "\"" ++ "u" ++ "\"", "N/A", "N/A", (fun _ : Nat => "ts") 0] ∧
     csvRow { method := "GET", url := "u", timestamp := 0,
              status := some 0, duration := some 0 } (fun _ => "ts") =
      csvRow { method := "GET", url := "u", timestamp := 0,
               status := none, duration := none } (fun _ => "ts")) ∧
    durationsOf ({ method := "GET", url := "u", timestamp := 0,
                   status := some 0, duration := some 0 } :: [obsLocalA]) =
      durationsOf [obsLocalA] ∧
    analyzePerformance [{ method := "GET", url := "u", timestamp := 0,
                          status := some 0, duration := some 0 }] = none ∧
    (generateRequestSummary []
        ([] ++ [{ method := "GET", url := "u", timestamp := 0,
                  status := some 0, duration := some 0 }])).statusDistribution =
      (generateRequestSummary [] []).statusDistribution :=
  ⟨falsy_zero_c10.1 _ (fun _ => "ts") rfl rfl,
   falsy_zero_c10.2.1 _ [obsLocalA] rfl,
   falsy_zero_c10.2.2.1 _ (by decide),
   falsy_zero_c10.2.2.2 [] [] _ rfl⟩

end PlaySwag
